import Mathlib

/-!
Verification of the liblsl stream-discovery resolver (`resolver_impl.cpp`)
against its natural-language specification.

The C++ code is shallowly embedded: machine doubles (clock values, RTTs,
intervals) are modelled as rationals, the `std::map`-backed result store as an
association list, and the asio event loop of `resolve_oneshot` as a fold over
a list of externally supplied run events (result deliveries, a cross-thread
`cancel`). Timer arming and probe emission are recorded as an explicit event
trace.
-/

set_option autoImplicit false

namespace Lsl

/-- Log levels used by the burst loops (`LOG_F(ERROR, ...)` / `LOG_F(WARNING, ...)`). -/
inductive LogLevel where
  | error
  | warning
  deriving DecidableEq, Repr

/-- The two protocol stacks (`udp::v6()` / `udp::v4()`). -/
inductive Protocol where
  | v6
  | v4
  deriving DecidableEq, Repr

/-- A unicast endpoint `(address, port)` as stored in `ucast_endpoints_`.
Addresses are opaque here; only the emptiness of the endpoint list matters
to the scheduler. -/
structure Endpoint where
  address : List Char
  port : Nat
  deriving DecidableEq, Repr

/-- The configuration fields of `api_config` read by the resolver
(`continuous_resolve_interval()`, the four RTT constants, the session id and
the two protocol-stack switches). -/
structure Config where
  continuous_resolve_interval : Rat
  multicast_min_rtt : Rat
  multicast_max_rtt : Rat
  unicast_min_rtt : Rat
  unicast_max_rtt : Rat
  session_id : List Char
  allow_ipv6 : Bool
  allow_ipv4 : Bool
  deriving DecidableEq, Repr

/-- Modelled from the spec: the constant `FOREVER` is declared in `common.h`
(not part of the sources at hand); the spec writes it as `∞` (`forget_after = ∞`,
`timeout ≥ 0 or ∞`). Its concrete value never matters below; only equality
with it is tested, as in the source (`timeout != FOREVER`). -/
def FOREVER : Rat := 32000000

/-- The protocol list built by the `resolver_impl` constructor: v6 if
`allow_ipv6()`, then v4 if `allow_ipv4()`. -/
def udp_protocols (cfg : Config) : List Protocol :=
  (if cfg.allow_ipv6 then [Protocol.v6] else []) ++ (if cfg.allow_ipv4 then [Protocol.v4] else [])

section Store

variable {K D : Type}

/-- Modelled from the spec: the insert-or-refresh of the result store is
performed by `resolve_attempt_udp` (not part of the sources at hand).
Spec: `upsert(key, descriptor, now)`: if key present, only update `last_seen`
to `now`; otherwise insert new record. -/
def upsert [DecidableEq K] (k : K) (d : D) (t : Rat) : List (K × D × Rat) → List (K × D × Rat)
  | [] => [(k, d, t)]
  | e :: rest => if e.1 = k then (e.1, e.2.1, t) :: rest else e :: upsert k d t rest

/-- The loop body of `resolver_impl::results`: walk the store, erase entries
with `last_seen < expired_before`, and append the descriptor of each surviving
entry to the output while the output holds fewer than `max_results` entries.
Returns (output, surviving store). -/
def resultsLoop (max_results : Nat) (expired_before : Rat) :
    List (K × D × Rat) → List D → List D × List (K × D × Rat)
  | [], out => (out, [])
  | e :: rest, out =>
    if e.2.2 < expired_before then
      resultsLoop max_results expired_before rest out
    else
      let out2 := if out.length < max_results then out ++ [e.2.1] else out
      let r := resultsLoop max_results expired_before rest out2
      (r.1, e :: r.2)

end Store

/-- State of a `resolver_impl`: the cancellation flags, the query parameters
set up by `resolve_oneshot` / `resolve_continuous`, the result store
(`results_`, keyed map to (descriptor, last-seen)), and the unicast endpoint
list built by the constructor. -/
structure Resolver (K D : Type) where
  cancelled : Bool
  expired : Bool
  query : List Char
  minimum : Int
  wait_until : Rat
  forget_after : Rat
  fast_mode : Bool
  results : List (K × D × Rat)
  ucast_endpoints : List Endpoint
  deriving DecidableEq, Repr

/-- Trace events: probe bursts emitted and timers armed or cancelled. -/
inductive Event where
  | multicastProbe
  | unicastTimerSet (delay : Rat)
  | waveTimerSet (interval : Rat)
  | timeoutTimerSet (timeout : Rat)
  | timersCancelled
  deriving DecidableEq, Repr

section Resolver

variable {K D : Type}

/-- `resolver_impl::cancel_ongoing_resolve`: set `expired_`, cancel the wave,
unicast and timeout timers (posted onto the io context) and all registered
attempts. Only the flag matters to the pure state. -/
def cancel_ongoing_resolve (r : Resolver K D) : Resolver K D :=
  { r with expired := true }

/-- `resolver_impl::cancel`: set `cancelled_`, then `cancel_ongoing_resolve`. -/
def cancel (r : Resolver K D) : Resolver K D :=
  cancel_ongoing_resolve { r with cancelled := true }

/-- The C++ conversion `(std::size_t)minimum_` of the `int` member:
conversion to an unsigned 64-bit type is reduction modulo `2 ^ 64`. -/
def size_t_of_int (m : Int) : Nat := (m % (2 : Int) ^ 64).toNat

/-- The stop condition evaluated at the top of `resolver_impl::next_resolve_wave`:
`cancelled_ || expired_ || (minimum_ && (num_results >= (std::size_t)minimum_)
&& lsl_clock() >= wait_until_)`. -/
def stop_check (cancelled expired : Bool) (minimum : Int) (num_results : Nat)
    (now wait_until : Rat) : Bool :=
  cancelled || expired ||
    (decide (minimum ≠ 0) && decide (size_t_of_int minimum ≤ num_results) &&
      decide (wait_until ≤ now))

/-- `resolver_impl::next_resolve_wave`: if the stop condition holds, invoke
`cancel_ongoing_resolve`; otherwise emit a multicast burst, arm the unicast
timer after `multicast_min_rtt` when unicast endpoints exist (adding
`unicast_min_rtt` to the wave interval), and arm the wave timer with
`(fast_mode ? 0 : continuous_resolve_interval) + multicast_min_rtt`
(plus the unicast term). -/
def next_resolve_wave (cfg : Config) (now : Rat) (r : Resolver K D) :
    Resolver K D × List Event :=
  if stop_check r.cancelled r.expired r.minimum r.results.length now r.wait_until then
    (cancel_ongoing_resolve r, [Event.timersCancelled])
  else
    let base := (if r.fast_mode then 0 else cfg.continuous_resolve_interval) +
      cfg.multicast_min_rtt
    if r.ucast_endpoints.isEmpty then
      (r, [Event.multicastProbe, Event.waveTimerSet base])
    else
      (r, [Event.multicastProbe, Event.unicastTimerSet cfg.multicast_min_rtt,
        Event.waveTimerSet (base + cfg.unicast_min_rtt)])

/-- `resolver_impl::results(max_results)`: under the store mutex, compute
`expired_before = lsl_clock() - forget_after_` and run the erase/collect loop.
Returns the output list and the resolver with the surviving store. -/
def results (max_results : Nat) (now : Rat) (r : Resolver K D) :
    List D × Resolver K D :=
  let p := resultsLoop max_results (now - r.forget_after) r.results []
  (p.1, { r with results := p.2 })

end Resolver

/-- External events processed while `io_->run()` executes in `resolve_oneshot`:
a resolve attempt depositing a reply into the result store, or a cross-thread
`resolver_impl::cancel()` call arriving during the run. -/
inductive RunEvent (K D : Type) where
  | deliver (k : K) (d : D) (t : Rat)
  | cancelCall

section Facade

variable {K D : Type}

/-- The event-loop run of `resolve_oneshot` (`io_->run()`), abstracted as a
fold over externally supplied events: deliveries upsert into the result store;
a `cancel()` call sets both flags, cancels all timers and attempts, and hence
drains the loop (no further events are processed). -/
def runIO [DecidableEq K] : List (RunEvent K D) → Resolver K D → Resolver K D
  | [], r => r
  | RunEvent.deliver k d t :: rest, r => runIO rest { r with results := upsert k d t r.results }
  | RunEvent.cancelCall :: _, r => cancel r

/-- The only error the resolver lets escape to its caller:
`std::invalid_argument` thrown by `check_query`. -/
inductive QueryError where
  | invalidQuery
  deriving DecidableEq, Repr

/-- `resolver_impl::resolve_oneshot(query, minimum, timeout, minimum_time)`.
`valid` abstracts the black-box query checker (`pugi::xpath_query` inside
`check_query`); `env` abstracts what arrives while `io_->run()` executes.
Faithful to the source order: check the query first; then reset the io
context and the wave state (`wait_until_ = lsl_clock() + minimum_time`,
`forget_after_ = FOREVER`, `fast_mode_ = true`, `expired_ = false`); arm the
timeout timer if `timeout != FOREVER`; start the first wave; then, only if
`cancelled_` is unset, run the event loop and collect every stored
descriptor. Returns (result-or-error, final state, trace). -/
def resolve_oneshot [DecidableEq K] (valid : List Char → Bool) (cfg : Config)
    (env : List (RunEvent K D)) (now : Rat) (query : List Char) (minimum : Int)
    (timeout minimum_time : Rat) (r : Resolver K D) :
    Except QueryError (List D) × Resolver K D × List Event :=
  if valid query then
    let r1 : Resolver K D :=
      { r with query := query, minimum := minimum, wait_until := now + minimum_time,
               results := [], forget_after := FOREVER, fast_mode := true, expired := false }
    let tev := if timeout = FOREVER then [] else [Event.timeoutTimerSet timeout]
    let w := next_resolve_wave cfg now r1
    if w.1.cancelled then
      (Except.ok [], w.1, tev ++ w.2)
    else
      let r3 := runIO env w.1
      (Except.ok (r3.results.map (fun e => e.2.1)), r3, tev ++ w.2)
  else (Except.error QueryError.invalidQuery, r, [])

/-- `resolver_impl::resolve_continuous(query, forget_after)`: check the query,
reset the wave state (`minimum_ = 0`, `wait_until_ = 0`, the given
`forget_after`, `fast_mode_ = false`, `expired_ = false`), start the first
wave, and hand the io context to a background thread. -/
def resolve_continuous (valid : List Char → Bool) (cfg : Config) (now : Rat)
    (query : List Char) (forget_after : Rat) (r : Resolver K D) :
    Except QueryError Unit × Resolver K D × List Event :=
  if valid query then
    let r1 : Resolver K D :=
      { r with query := query, minimum := 0, wait_until := 0, results := [],
               forget_after := forget_after, fast_mode := false, expired := false }
    let w := next_resolve_wave cfg now r1
    (Except.ok (), w.1, w.2)
  else (Except.error QueryError.invalidQuery, r, [])

end Facade

/-- The apostrophe character wrapped around values in queries. -/
def quote : Char := Char.ofNat 39

/-- `resolver_impl::build_query(pred_or_prop, value)`: start from
`session_id='<sid>'`; if `pred_or_prop` is non-null append `" and "` and the
predicate; independently, if `value` is non-null append `='<value>'`.
C++ strings are modelled as `List Char`, null pointers as `none`. -/
def build_query (sid : List Char) (pred_or_prop : Option (List Char))
    (value : Option (List Char)) : List Char :=
  let q1 := "session_id=".toList ++ [quote] ++ sid ++ [quote]
  let q2 := match pred_or_prop with
    | none => q1
    | some p => q1 ++ " and ".toList ++ p
  match value with
  | none => q2
  | some v => q2 ++ "=".toList ++ [quote] ++ v ++ [quote]

/-- Written from the spec's words, for comparison with `build_query`:
the base query form `session_id='<sid>'`. -/
def spec_base_query (sid : List Char) : List Char :=
  "session_id=".toList ++ [quote] ++ sid ++ [quote]

/-- Written from the spec's words, for comparison with `build_query`:
the extended query form `session_id='<sid>' and <pred_or_prop>='<value>'`. -/
def spec_extended_query (sid p v : List Char) : List Char :=
  spec_base_query sid ++ " and ".toList ++ p ++ "=".toList ++ [quote] ++ v ++ [quote]

/-- Written from the spec's words: a query string is of the specified shape
when it is the base form or the base form extended by one predicate/value pair. -/
def QueryOfSpecForm (sid q : List Char) : Prop :=
  q = spec_base_query sid ∨ ∃ p v, q = spec_extended_query sid p v

/-- The burst loop shared by `udp_multicast_burst` and `udp_unicast_burst`:
iterate over the protocol-stack indices; for each index, creating and starting
the resolve attempt may throw (abstracted by the oracle `attempt_throws`), in
which case the failure counter is incremented and, exactly when it reaches the
total stack count `n`, one message is logged at `lvl`. Returns the indices of
the attempts that were started and the emitted log messages. -/
def burst_loop (attempt_throws : Nat → Bool) (n : Nat) (lvl : LogLevel) :
    List Nat → Nat → List Nat × List LogLevel
  | [], _ => ([], [])
  | k :: rest, failures =>
    if attempt_throws k then
      let out := burst_loop attempt_throws n lvl rest (failures + 1)
      (out.1, (if failures + 1 = n then [lvl] else []) ++ out.2)
    else
      let out := burst_loop attempt_throws n lvl rest failures
      (k :: out.1, out.2)

/-- `resolver_impl::udp_multicast_burst`: one attempt per allowed protocol
stack; a total failure is logged once at ERROR level. -/
def udp_multicast_burst (cfg : Config) (attempt_throws : Nat → Bool) :
    List Nat × List LogLevel :=
  burst_loop attempt_throws (udp_protocols cfg).length LogLevel.error
    (List.range (udp_protocols cfg).length) 0

/-- `resolver_impl::udp_unicast_burst(err)`: nothing happens when the unicast
timer was aborted; otherwise one attempt per allowed protocol stack, with a
total failure logged once at WARNING level. -/
def udp_unicast_burst (cfg : Config) (aborted : Bool) (attempt_throws : Nat → Bool) :
    List Nat × List LogLevel :=
  if aborted then ([], [])
  else
    burst_loop attempt_throws (udp_protocols cfg).length LogLevel.warning
      (List.range (udp_protocols cfg).length) 0

/-- A sample configuration (both stacks allowed) used to instantiate the
universally quantified theorems on concrete inputs. -/
def sampleConfig : Config :=
  { continuous_resolve_interval := 1/2, multicast_min_rtt := 1/10, multicast_max_rtt := 2,
    unicast_min_rtt := 3/10, unicast_max_rtt := 4, session_id := "default".toList,
    allow_ipv6 := true, allow_ipv4 := true }

/-- A sample freshly constructed resolver (no unicast endpoints, empty store). -/
def sampleResolver : Resolver Nat Nat :=
  { cancelled := false, expired := false, query := [], minimum := 0, wait_until := 0,
    forget_after := FOREVER, fast_mode := true, results := [], ucast_endpoints := [] }

/-- A resolver whose store holds one just-upserted entry and whose
`forget_after` is 0, so that at clock 0 the entry is not stale. -/
def staleCapResolver : Resolver Nat Nat :=
  { sampleResolver with forget_after := 0, results := upsert 0 5 0 [] }

/-- A resolver with an empty store and `forget_after = 0`. -/
def freshStoreResolver : Resolver Nat Nat :=
  { sampleResolver with forget_after := 0 }

/-- A resolver whose store held key 0 with descriptor 9 before
`upsert(0, 5, 1)` refreshed that key: the stored descriptor stays 9, only
`last_seen` moves to 1. -/
def refreshedKeyResolver : Resolver Nat Nat :=
  { sampleResolver with forget_after := 1, results := upsert 0 5 1 [(0, 9, 0)] }

/-- A one-shot resolve during which one result is delivered and then a
cross-thread `cancel()` arrives while `io_->run()` is executing. -/
def cancelledDuringRun : Except QueryError (List Nat) × Resolver Nat Nat × List Event :=
  resolve_oneshot (fun _ => true) sampleConfig [RunEvent.deliver 0 5 0, RunEvent.cancelCall]
    0 [] 1 FOREVER 0 sampleResolver

section StopLemmas

variable {K D : Type}

theorem size_t_of_int_eq_toNat {m : Int} (h0 : 0 ≤ m) (h1 : m < 2 ^ 64) :
    size_t_of_int m = m.toNat := by
  unfold size_t_of_int
  rw [Int.emod_eq_of_lt h0 h1]

theorem stop_check_iff (minimum : Int) (num_results : Nat) (cancelled expired : Bool)
    (now wait_until : Rat) (h0 : 0 ≤ minimum) (h1 : minimum < 2 ^ 31) :
    stop_check cancelled expired minimum num_results now wait_until = true ↔
      (cancelled = true ∨ expired = true ∨
        (0 < minimum ∧ minimum ≤ (num_results : Int) ∧ wait_until ≤ now)) := by
  have hlt : minimum < 2 ^ 64 := lt_trans h1 (by norm_num)
  have hcast : size_t_of_int minimum = minimum.toNat := size_t_of_int_eq_toNat h0 hlt
  simp only [stop_check, Bool.or_eq_true, Bool.and_eq_true, decide_eq_true_eq, hcast,
    Int.toNat_le]
  have hne : minimum ≠ 0 ↔ 0 < minimum := by omega
  rw [hne]
  tauto

end StopLemmas

section StoreLemmas

variable {K D : Type}

theorem resultsLoop_length_le (max_results : Nat) (expired_before : Rat) :
    ∀ (s : List (K × D × Rat)) (out : List D), out.length ≤ max_results →
      (resultsLoop max_results expired_before s out).1.length ≤ max_results := by
  intro s
  induction s with
  | nil => intro out h; simpa [resultsLoop] using h
  | cons e rest ih =>
    intro out h
    by_cases hexp : e.2.2 < expired_before
    · simpa [resultsLoop, hexp] using ih out h
    · by_cases hcap : out.length < max_results
      · have h2 : (out ++ [e.2.1]).length ≤ max_results := by
          simpa [List.length_append] using hcap
        simpa [resultsLoop, hexp, hcap] using ih (out ++ [e.2.1]) h2
      · simpa [resultsLoop, hexp, hcap] using ih out h

theorem resultsLoop_survivors (max_results : Nat) (expired_before : Rat) :
    ∀ (s : List (K × D × Rat)) (out : List D),
      ∀ e ∈ (resultsLoop max_results expired_before s out).2, ¬ (e.2.2 < expired_before) := by
  intro s
  induction s with
  | nil => intro out e he; simp [resultsLoop] at he
  | cons x rest ih =>
    intro out e he
    by_cases hexp : x.2.2 < expired_before
    · rw [resultsLoop] at he
      simp only [hexp, if_true] at he
      exact ih out e he
    · rw [resultsLoop] at he
      simp only [hexp, if_false] at he
      rcases List.mem_cons.mp he with h | h
      · subst h; exact hexp
      · exact ih _ e h

theorem resultsLoop_uncapped (max_results : Nat) (expired_before : Rat) :
    ∀ (s : List (K × D × Rat)) (out : List D),
      out.length + (s.filter (fun e => ! decide (e.2.2 < expired_before))).length ≤ max_results →
      (resultsLoop max_results expired_before s out).1 =
        out ++ (s.filter (fun e => ! decide (e.2.2 < expired_before))).map (fun e => e.2.1) := by
  intro s
  induction s with
  | nil => intro out _; simp [resultsLoop]
  | cons x rest ih =>
    intro out h
    by_cases hexp : x.2.2 < expired_before
    · rw [resultsLoop]
      simp only [hexp, if_true]
      rw [List.filter_cons_of_neg (by simpa using hexp)] at h ⊢
      exact ih out h
    · rw [List.filter_cons_of_pos (by simpa using hexp)] at h ⊢
      have hcap : out.length < max_results := by
        simp only [List.length_cons] at h; omega
      rw [resultsLoop]
      simp only [hexp, if_false, hcap, if_true]
      have h2 : (out ++ [x.2.1]).length +
          (rest.filter (fun e => ! decide (e.2.2 < expired_before))).length ≤ max_results := by
        simp only [List.length_append, List.length_cons, List.length_nil] at h ⊢
        omega
      rw [ih (out ++ [x.2.1]) h2]
      simp

theorem resultsLoop_store (max_results : Nat) (expired_before : Rat) :
    ∀ (s : List (K × D × Rat)) (out : List D),
      (resultsLoop max_results expired_before s out).2 =
        s.filter (fun e => ! decide (e.2.2 < expired_before)) := by
  intro s
  induction s with
  | nil => intro out; rfl
  | cons x rest ih =>
    intro out
    by_cases hexp : x.2.2 < expired_before
    · rw [resultsLoop]
      simp only [hexp, if_true]
      rw [List.filter_cons_of_neg (by simpa using hexp)]
      exact ih out
    · rw [resultsLoop]
      simp only [hexp, if_false]
      rw [List.filter_cons_of_pos (by simpa using hexp)]
      rw [ih]

theorem upsert_fresh [DecidableEq K] (k : K) (d : D) (t : Rat) :
    ∀ s : List (K × D × Rat), (∀ e ∈ s, e.1 ≠ k) → upsert k d t s = s ++ [(k, d, t)] := by
  intro s
  induction s with
  | nil => intro _; rfl
  | cons x rest ih =>
    intro h
    have hx : x.1 ≠ k := h x (List.mem_cons_self x rest)
    rw [upsert, if_neg hx, ih (fun e he => h e (List.mem_cons_of_mem x he))]
    rfl

end StoreLemmas

section BurstLemmas

theorem burst_loop_started (attempt_throws : Nat → Bool) (n : Nat) (lvl : LogLevel) :
    ∀ (l : List Nat) (failures : Nat),
      (burst_loop attempt_throws n lvl l failures).1 =
        l.filter (fun k => ! attempt_throws k) := by
  intro l
  induction l with
  | nil => intro failures; rfl
  | cons k rest ih =>
    intro failures
    by_cases hk : attempt_throws k
    · rw [burst_loop]
      simp only [hk, if_true]
      rw [List.filter_cons_of_neg (by simp [hk])]
      exact ih (failures + 1)
    · rw [burst_loop]
      simp only [hk, Bool.false_eq_true, if_false]
      rw [List.filter_cons_of_pos (by simp [hk])]
      rw [ih failures]

theorem burst_loop_logs_of_lt (attempt_throws : Nat → Bool) (n : Nat) (lvl : LogLevel) :
    ∀ (l : List Nat) (failures : Nat), failures + l.length < n →
      (burst_loop attempt_throws n lvl l failures).2 = [] := by
  intro l
  induction l with
  | nil => intro failures _; rfl
  | cons k rest ih =>
    intro failures h
    simp only [List.length_cons] at h
    by_cases hk : attempt_throws k
    · rw [burst_loop]
      simp only [hk, if_true]
      rw [if_neg (by omega), ih (failures + 1) (by omega)]
      rfl
    · rw [burst_loop]
      simp only [hk, Bool.false_eq_true, if_false]
      exact ih failures (by omega)

theorem burst_loop_logs_of_all (attempt_throws : Nat → Bool) (n : Nat) (lvl : LogLevel) :
    ∀ (l : List Nat) (failures : Nat), failures + l.length = n → l ≠ [] →
      (∀ k ∈ l, attempt_throws k = true) →
      (burst_loop attempt_throws n lvl l failures).2 = [lvl] := by
  intro l
  induction l with
  | nil => intro failures _ hne _; exact absurd rfl hne
  | cons k rest ih =>
    intro failures h _ hall
    have hk : attempt_throws k = true := hall k (List.mem_cons_self k rest)
    simp only [List.length_cons] at h
    rw [burst_loop]
    simp only [hk, if_true]
    cases rest with
    | nil =>
      simp only [List.length_nil] at h
      rw [if_pos (by omega)]
      rfl
    | cons r rs =>
      have hne2 : failures + 1 ≠ n := by
        simp only [List.length_cons] at h
        omega
      rw [if_neg hne2]
      rw [ih (failures + 1) (by simp only [List.length_cons] at h ⊢; omega) (by simp)
        (fun x hx => hall x (List.mem_cons_of_mem k hx))]
      rfl

theorem burst_loop_logs_of_exists (attempt_throws : Nat → Bool) (n : Nat) (lvl : LogLevel) :
    ∀ (l : List Nat) (failures : Nat), failures + l.length = n →
      (∃ k ∈ l, attempt_throws k = false) →
      (burst_loop attempt_throws n lvl l failures).2 = [] := by
  intro l
  induction l with
  | nil => intro failures _ hex; simp at hex
  | cons k rest ih =>
    intro failures h hex
    simp only [List.length_cons] at h
    by_cases hk : attempt_throws k
    · have hex2 : ∃ x ∈ rest, attempt_throws x = false := by
        rcases hex with ⟨x, hx, hfx⟩
        rcases List.mem_cons.mp hx with hxx | hxx
        · subst hxx; rw [hk] at hfx; cases hfx
        · exact ⟨x, hxx, hfx⟩
      have hrest_ne : rest ≠ [] := by
        rcases hex2 with ⟨x, hx, _⟩
        intro hre; rw [hre] at hx; simp at hx
      rw [burst_loop]
      simp only [hk, if_true]
      have hlen : 1 ≤ rest.length := by
        cases rest with
        | nil => exact absurd rfl hrest_ne
        | cons _ _ => simp
      rw [if_neg (by omega), ih (failures + 1) (by omega) hex2]
      rfl
    · rw [burst_loop]
      simp only [hk, Bool.false_eq_true, if_false]
      exact burst_loop_logs_of_lt attempt_throws n lvl rest failures (by omega)

theorem burst_top_logs (attempt_throws : Nat → Bool) (n : Nat) (lvl : LogLevel)
    (hn : 1 ≤ n) :
    ((burst_loop attempt_throws n lvl (List.range n) 0).2 = [lvl] ↔
      ∀ k < n, attempt_throws k = true) ∧
    ((burst_loop attempt_throws n lvl (List.range n) 0).2 = [] ↔
      ¬ ∀ k < n, attempt_throws k = true) := by
  have hall : (∀ k < n, attempt_throws k = true) →
      (burst_loop attempt_throws n lvl (List.range n) 0).2 = [lvl] := by
    intro ha
    refine burst_loop_logs_of_all attempt_throws n lvl (List.range n) 0
      (by simp) (by simp [List.range_eq_nil]; omega) ?_
    intro k hk
    exact ha k (List.mem_range.mp hk)
  have hnot : ¬ (∀ k < n, attempt_throws k = true) →
      (burst_loop attempt_throws n lvl (List.range n) 0).2 = [] := by
    intro ha
    push_neg at ha
    rcases ha with ⟨k, hk, hfk⟩
    refine burst_loop_logs_of_exists attempt_throws n lvl (List.range n) 0 (by simp) ?_
    exact ⟨k, List.mem_range.mpr hk, by simpa using hfk⟩
  constructor
  · constructor
    · intro hl
      by_contra hna
      rw [hnot hna] at hl
      simp at hl
    · exact hall
  · constructor
    · intro hl ha
      rw [hall ha] at hl
      simp at hl
    · exact hnot

end BurstLemmas

/-- C1: at the start of every wave, `next_resolve_wave` stops — invokes
`cancel_ongoing_resolve` instead of emitting bursts or arming timers — if and
only if `cancelled` is set, or `expired` is set, or `minimum_count > 0` and the
result count is at least `minimum_count` and the clock is at least
`wait_until`. Stated for `minimum` in the range the API admits
(`minimum_count ≥ 0`, an `int`). -/
theorem claim_C1_wave_stop_iff {K D : Type} (cfg : Config) (now : Rat) (r : Resolver K D)
    (h0 : 0 ≤ r.minimum) (h1 : r.minimum < 2 ^ 31) :
    next_resolve_wave cfg now r = (cancel_ongoing_resolve r, [Event.timersCancelled]) ↔
      (r.cancelled = true ∨ r.expired = true ∨
        (0 < r.minimum ∧ r.minimum ≤ (r.results.length : Int) ∧ r.wait_until ≤ now)) := by
  rw [← stop_check_iff r.minimum r.results.length r.cancelled r.expired now r.wait_until h0 h1]
  cases hsc : stop_check r.cancelled r.expired r.minimum r.results.length now r.wait_until with
  | true => simp [next_resolve_wave, hsc]
  | false =>
    by_cases hu : r.ucast_endpoints.isEmpty <;>
      simp [next_resolve_wave, hsc, hu]

/-- C1 witness: a cancelled resolver stops its wave. -/
theorem claim_C1_witness :
    next_resolve_wave sampleConfig 0 { sampleResolver with cancelled := true } =
      (cancel_ongoing_resolve { sampleResolver with cancelled := true },
        [Event.timersCancelled]) :=
  (claim_C1_wave_stop_iff sampleConfig 0 { sampleResolver with cancelled := true }
    (by decide) (by decide)).mpr (Or.inl rfl)

/-- C5: the list returned by `results(max_results)` never holds more than
`max_results` descriptors, for every store state. -/
theorem claim_C5_snapshot_capped {K D : Type} (max_results : Nat) (now : Rat)
    (r : Resolver K D) :
    (results max_results now r).1.length ≤ max_results := by
  simp only [results]
  exact resultsLoop_length_le max_results (now - r.forget_after) r.results [] (by simp)

/-- C6: after `results(max_results)` completes, every entry surviving in the
store — including entries beyond the `max_results` cap — has
`last_seen ≥ expired_before` where `expired_before = now - forget_after`. -/
theorem claim_C6_snapshot_evicts {K D : Type} (max_results : Nat) (now : Rat)
    (r : Resolver K D) :
    ∀ e ∈ (results max_results now r).2.results, ¬ (e.2.2 < now - r.forget_after) := by
  simp only [results]
  intro e he
  exact resultsLoop_survivors max_results (now - r.forget_after) r.results [] e he

/-- C6 witness: the surviving entry of a concrete snapshot is not stale. -/
theorem claim_C6_witness :
    ¬ ((((0 : Nat), (5 : Nat), (0 : Rat)) : Nat × Nat × Rat).2.2 <
      0 - staleCapResolver.forget_after) :=
  claim_C6_snapshot_evicts 0 0 staleCapResolver (0, 5, 0) (by
    simp [results, resultsLoop, staleCapResolver, sampleResolver, upsert])

/-- C7: in every non-stopping wave, the wave timer is armed with
`(fast_mode ? 0 : continuous_resolve_interval) + multicast_min_rtt`; when the
unicast endpoint list is non-empty the unicast timer is armed to fire
`multicast_min_rtt` after the multicast burst and `unicast_min_rtt` is added
to the wave interval; when it is empty, no unicast burst is scheduled and the
interval is unchanged. -/
theorem claim_C7_wave_pacing {K D : Type} (cfg : Config) (now : Rat) (r : Resolver K D)
    (h : stop_check r.cancelled r.expired r.minimum r.results.length now r.wait_until
      = false) :
    (next_resolve_wave cfg now r).2 =
      if r.ucast_endpoints.isEmpty then
        [Event.multicastProbe,
          Event.waveTimerSet ((if r.fast_mode then 0 else cfg.continuous_resolve_interval) +
            cfg.multicast_min_rtt)]
      else
        [Event.multicastProbe, Event.unicastTimerSet cfg.multicast_min_rtt,
          Event.waveTimerSet ((if r.fast_mode then 0 else cfg.continuous_resolve_interval) +
            cfg.multicast_min_rtt + cfg.unicast_min_rtt)] := by
  by_cases hu : r.ucast_endpoints.isEmpty <;> simp [next_resolve_wave, h, hu]

/-- C7 witness: a fresh resolver (empty unicast endpoint list, fast mode)
arms only the wave timer, with interval `0 + multicast_min_rtt`. -/
theorem claim_C7_witness :
    (next_resolve_wave sampleConfig 0 sampleResolver).2 =
      if sampleResolver.ucast_endpoints.isEmpty then
        [Event.multicastProbe,
          Event.waveTimerSet
            ((if sampleResolver.fast_mode then 0
              else sampleConfig.continuous_resolve_interval) +
              sampleConfig.multicast_min_rtt)]
      else
        [Event.multicastProbe, Event.unicastTimerSet sampleConfig.multicast_min_rtt,
          Event.waveTimerSet
            ((if sampleResolver.fast_mode then 0
              else sampleConfig.continuous_resolve_interval) +
              sampleConfig.multicast_min_rtt + sampleConfig.unicast_min_rtt)] :=
  claim_C7_wave_pacing sampleConfig 0 sampleResolver (by decide)

/-- C2 (counterexample): the claim fails at two explicit inputs. First,
`upsert(0, 5, 0)` followed by `results` with `max_results = 0` and
`expired_before = 0 - 0 ≤ 0`: the descriptor survives in the store but does
not appear in the returned list, refuting "d appears in the snapshot output
for any value of max_results". Second, `upsert(0, 5, 1)` on a store already
holding key 0 with descriptor 9, followed by `results` with a large
`max_results = 10` and `expired_before = 1 - 1 ≤ 1`: the output is `[9]`, not
containing 5, because `upsert` of a present key keeps the stored descriptor
and refreshes only `last_seen`. -/
theorem claim_C2_counterexample :
    (¬ ((0 : Rat) < 0 - staleCapResolver.forget_after) ∧
      (results 0 0 staleCapResolver).2.results = [(0, 5, 0)] ∧
      (5 : Nat) ∉ (results 0 0 staleCapResolver).1) ∧
    (¬ ((1 : Rat) < 1 - refreshedKeyResolver.forget_after) ∧
      (results 10 1 refreshedKeyResolver).1 = [9] ∧
      (5 : Nat) ∉ (results 10 1 refreshedKeyResolver).1) := by
  refine ⟨⟨?_, ?_, ?_⟩, ?_, ?_, ?_⟩ <;>
    norm_num [results, resultsLoop, staleCapResolver, refreshedKeyResolver,
      sampleResolver, upsert]

/-- C2 (amended): if the key is not already present in the store — an upsert
of a present key keeps the stored descriptor and refreshes only `last_seen`,
as the second half of the counterexample shows — and the new entry is not
stale (`t ≥ now - forget_after`), then the entry `(k, d, t)` survives the
snapshot, and `d` appears in the returned list provided `max_results` is at
least the number of entries that survive the snapshot; with a smaller
`max_results` the entry still survives in the store, though `d` may be
missing from the output. -/
theorem claim_C2_amended {K D : Type} [DecidableEq K] (k : K) (d : D) (t now : Rat)
    (max_results : Nat) (r : Resolver K D)
    (hfresh : ∀ e ∈ r.results, e.1 ≠ k)
    (ht : ¬ t < now - r.forget_after)
    (hmax : ((upsert k d t r.results).filter
      (fun e => ! decide (e.2.2 < now - r.forget_after))).length ≤ max_results) :
    (k, d, t) ∈ (results max_results now
        { r with results := upsert k d t r.results }).2.results ∧
      d ∈ (results max_results now { r with results := upsert k d t r.results }).1 := by
  simp only [results]
  have hup : upsert k d t r.results = r.results ++ [(k, d, t)] :=
    upsert_fresh k d t r.results hfresh
  have hfilter : (r.results ++ [((k, d, t) : K × D × Rat)]).filter
      (fun e => ! decide (e.2.2 < now - r.forget_after)) =
      r.results.filter (fun e => ! decide (e.2.2 < now - r.forget_after)) ++ [(k, d, t)] := by
    rw [List.filter_append]
    simp [ht]
  constructor
  · show (k, d, t) ∈ (resultsLoop max_results (now - r.forget_after)
      (upsert k d t r.results) []).2
    rw [resultsLoop_store, hup, hfilter]
    simp
  · show d ∈ (resultsLoop max_results (now - r.forget_after)
      (upsert k d t r.results) []).1
    have hlen : ([] : List D).length + ((upsert k d t r.results).filter
        (fun e => ! decide (e.2.2 < now - r.forget_after))).length ≤ max_results := by
      simpa using hmax
    rw [resultsLoop_uncapped max_results (now - r.forget_after) _ [] hlen, hup, hfilter]
    simp

/-- C2 (amended) witness: with an empty store, `upsert(0, 5, 0)` followed by
`results(1)` at clock 0 returns the descriptor 5 (one surviving entry,
`max_results = 1`). -/
theorem claim_C2_amended_witness :
    (5 : Nat) ∈ (results 1 0
      { freshStoreResolver with results := upsert 0 5 0 freshStoreResolver.results }).1 :=
  (claim_C2_amended 0 5 0 0 1 freshStoreResolver
    (by simp [freshStoreResolver, sampleResolver])
    (by simp [freshStoreResolver, sampleResolver])
    (by simp [freshStoreResolver, sampleResolver, upsert])).2

/-- C3: with an invalid query, both `resolve_oneshot` and `resolve_continuous`
raise InvalidQuery synchronously: the returned trace is empty (no socket
opened, no probe sent, no timer armed) and the resolver state — query, wave
state, result store — is exactly the input state. -/
theorem claim_C3_invalid_query_no_io {K D : Type} [DecidableEq K]
    (valid : List Char → Bool) (cfg : Config) (env : List (RunEvent K D)) (now : Rat)
    (query : List Char) (minimum : Int) (timeout minimum_time forget_after : Rat)
    (r : Resolver K D) (h : valid query = false) :
    resolve_oneshot valid cfg env now query minimum timeout minimum_time r =
        (Except.error QueryError.invalidQuery, r, []) ∧
      resolve_continuous valid cfg now query forget_after r =
        (Except.error QueryError.invalidQuery, r, []) := by
  constructor <;> simp [resolve_oneshot, resolve_continuous, h]

/-- C3 witness: a checker rejecting everything makes both entry points return
InvalidQuery with untouched state and an empty trace. -/
theorem claim_C3_witness :
    resolve_oneshot (fun _ => false) sampleConfig ([] : List (RunEvent Nat Nat)) 0 [] 0 0 0
        sampleResolver = (Except.error QueryError.invalidQuery, sampleResolver, []) ∧
      resolve_continuous (fun _ => false) sampleConfig 0 [] 1 sampleResolver =
        (Except.error QueryError.invalidQuery, sampleResolver, []) :=
  claim_C3_invalid_query_no_io (fun _ => false) sampleConfig [] 0 [] 0 0 0 1
    sampleResolver rfl

/-- C4 (counterexample): a `cancel()` arriving while `io_->run()` executes —
after one result was delivered — does not make `resolve_oneshot` return the
empty list: the `!cancelled_` test sits before the run, so the call returns
the partial result set `[5]` even though the final state is cancelled. -/
theorem claim_C4_counterexample :
    cancelledDuringRun.1 = Except.ok [5] ∧
      cancelledDuringRun.2.1.cancelled = true ∧
      Except.ok [5] ≠ (Except.ok ([] : List Nat) : Except QueryError (List Nat)) := by
  refine ⟨?_, ?_, by simp⟩ <;>
    simp [cancelledDuringRun, resolve_oneshot, next_resolve_wave, stop_check,
      size_t_of_int, runIO, upsert, cancel, cancel_ongoing_resolve, sampleResolver,
      sampleConfig]

/-- C4 (amended): whenever `cancel()` was invoked before the call — the
cancelled flag is set at entry — `resolve_oneshot` returns the empty list
(a cancellation during the run instead yields the results collected so far,
which may be non-empty). -/
theorem claim_C4_amended {K D : Type} [DecidableEq K] (valid : List Char → Bool)
    (cfg : Config) (env : List (RunEvent K D)) (now : Rat) (query : List Char)
    (minimum : Int) (timeout minimum_time : Rat) (r : Resolver K D)
    (hc : r.cancelled = true) (hq : valid query = true) :
    (resolve_oneshot valid cfg env now query minimum timeout minimum_time r).1 =
      Except.ok [] := by
  simp [resolve_oneshot, next_resolve_wave, stop_check, cancel_ongoing_resolve, hc, hq]

/-- C4 (amended) witness: a resolver cancelled before the call returns `[]`. -/
theorem claim_C4_amended_witness :
    (resolve_oneshot (fun _ => true) sampleConfig ([] : List (RunEvent Nat Nat)) 0 [] 1
        FOREVER 0 { sampleResolver with cancelled := true }).1 = Except.ok [] :=
  claim_C4_amended (fun _ => true) sampleConfig [] 0 [] 1 FOREVER 0
    { sampleResolver with cancelled := true } rfl rfl

/-- C8: within a burst, one stack's failure to create or start its attempt
never prevents the attempt on the other stack (an attempt runs iff its own
oracle does not throw); the burst logs exactly one message — ERROR for
multicast, WARNING for unicast — iff the attempts for all allowed stacks
fail, and logs nothing otherwise; the burst functions are total, so no
failure propagates. Stated for configurations with at least one allowed
stack, which the `ports.IPv6` setting (`disable`/`force`/`allow`)
guarantees. -/
theorem claim_C8_burst_isolation (cfg : Config) (throwsM throwsU : Nat → Bool)
    (h : cfg.allow_ipv4 = true ∨ cfg.allow_ipv6 = true) :
    (∀ k, k ∈ (udp_multicast_burst cfg throwsM).1 ↔
        k < (udp_protocols cfg).length ∧ throwsM k = false) ∧
    (∀ k, k ∈ (udp_unicast_burst cfg false throwsU).1 ↔
        k < (udp_protocols cfg).length ∧ throwsU k = false) ∧
    ((udp_multicast_burst cfg throwsM).2 = [LogLevel.error] ↔
      ∀ k < (udp_protocols cfg).length, throwsM k = true) ∧
    ((udp_multicast_burst cfg throwsM).2 = [] ↔
      ¬ ∀ k < (udp_protocols cfg).length, throwsM k = true) ∧
    ((udp_unicast_burst cfg false throwsU).2 = [LogLevel.warning] ↔
      ∀ k < (udp_protocols cfg).length, throwsU k = true) ∧
    ((udp_unicast_burst cfg false throwsU).2 = [] ↔
      ¬ ∀ k < (udp_protocols cfg).length, throwsU k = true) := by
  have hn : 1 ≤ (udp_protocols cfg).length := by
    unfold udp_protocols
    rcases h with h | h
    · rw [h]
      cases cfg.allow_ipv6 <;> simp
    · rw [h]
      cases cfg.allow_ipv4 <;> simp
  have hM := burst_top_logs throwsM (udp_protocols cfg).length LogLevel.error hn
  have hU := burst_top_logs throwsU (udp_protocols cfg).length LogLevel.warning hn
  refine ⟨?_, ?_, hM.1, hM.2, ?_, ?_⟩
  · intro k
    have he : (udp_multicast_burst cfg throwsM).1 = (burst_loop throwsM
        (udp_protocols cfg).length LogLevel.error
        (List.range (udp_protocols cfg).length) 0).1 := rfl
    rw [he, burst_loop_started]
    simp [List.mem_filter, List.mem_range]
  · intro k
    have he : (udp_unicast_burst cfg false throwsU).1 = (burst_loop throwsU
        (udp_protocols cfg).length LogLevel.warning
        (List.range (udp_protocols cfg).length) 0).1 := rfl
    rw [he, burst_loop_started]
    simp [List.mem_filter, List.mem_range]
  · exact hU.1
  · exact hU.2

/-- C8 witness: with both stacks allowed and every multicast attempt
throwing, exactly one ERROR burst message is logged. -/
theorem claim_C8_witness :
    (udp_multicast_burst sampleConfig (fun _ => true)).2 = [LogLevel.error] :=
  (claim_C8_burst_isolation sampleConfig (fun _ => true) (fun _ => false)
    (Or.inl rfl)).2.2.1.mpr (by decide)

/-- C9 (counterexample): with a non-null predicate and a null value,
`build_query` produces `session_id='s' and type`, which is neither the base
form nor any extension `session_id='s' and <p>='<v>'` (every string of the
specified form ends in a quote, this one ends in `e`). -/
theorem claim_C9_counterexample :
    ¬ QueryOfSpecForm "s".toList (build_query "s".toList (some "type".toList) none) := by
  intro h
  rcases h with h | ⟨p, v, h⟩
  · have hne : build_query "s".toList (some "type".toList) none ≠
        spec_base_query "s".toList := by decide
    exact hne h
  · have h1 : (build_query "s".toList (some "type".toList) none).getLast? =
        some 'e' := by decide
    have h2 : (spec_extended_query "s".toList p v).getLast? = some quote := by
      unfold spec_extended_query
      exact List.getLast?_concat _
    rw [h, h2] at h1
    have : quote = 'e' := Option.some.inj h1
    exact absurd this (by decide)

/-- C9 (amended): the claimed form holds exactly when `pred_or_prop` and
`value` are both null or both non-null; with a non-null predicate and null
value the query is `session_id='<sid>' and <pred>`, and with a null predicate
and non-null value it is `session_id='<sid>'='<value>'`. -/
theorem claim_C9_amended (sid p v : List Char) :
    build_query sid none none = spec_base_query sid ∧
    build_query sid (some p) (some v) = spec_extended_query sid p v ∧
    build_query sid (some p) none = spec_base_query sid ++ " and ".toList ++ p ∧
    build_query sid none (some v) =
      spec_base_query sid ++ "=".toList ++ [quote] ++ v ++ [quote] :=
  ⟨rfl, rfl, rfl, rfl⟩

/-- C10: cancellation is permanent. Once the cancelled flag is set, a
subsequent `resolve_oneshot` (with a valid query) stops on its first wave —
its trace is the optional timeout-timer arming followed only by the
cancellation of the timers, with no probe — returns the empty list and leaves
the flag set; `resolve_continuous`, `results`, `cancel` and
`cancel_ongoing_resolve` also leave the flag set. -/
theorem claim_C10_cancel_permanent {K D : Type} [DecidableEq K]
    (valid : List Char → Bool) (cfg : Config) (env : List (RunEvent K D)) (now : Rat)
    (query : List Char) (minimum : Int) (timeout minimum_time forget_after : Rat)
    (max_results : Nat) (r : Resolver K D)
    (hc : r.cancelled = true) (hq : valid query = true) :
    (resolve_oneshot valid cfg env now query minimum timeout minimum_time r).1 =
        Except.ok [] ∧
      (resolve_oneshot valid cfg env now query minimum timeout minimum_time
        r).2.1.cancelled = true ∧
      (resolve_oneshot valid cfg env now query minimum timeout minimum_time r).2.2 =
        (if timeout = FOREVER then [] else [Event.timeoutTimerSet timeout]) ++
          [Event.timersCancelled] ∧
      (resolve_continuous valid cfg now query forget_after r).2.1.cancelled = true ∧
      (results max_results now r).2.cancelled = true ∧
      (cancel r).cancelled = true ∧
      (cancel_ongoing_resolve r).cancelled = true := by
  refine ⟨?_, ?_, ?_, ?_, ?_, ?_, ?_⟩ <;>
    simp [resolve_oneshot, resolve_continuous, results, next_resolve_wave, stop_check,
      cancel, cancel_ongoing_resolve, hc, hq]

/-- C10 witness: a cancelled resolver's subsequent one-shot returns `[]`. -/
theorem claim_C10_witness :
    (resolve_oneshot (fun _ => true) sampleConfig ([] : List (RunEvent Nat Nat)) 0 [] 0
        FOREVER 0 { sampleResolver with cancelled := true }).1 = Except.ok [] :=
  (claim_C10_cancel_permanent (fun _ => true) sampleConfig [] 0 [] 0 FOREVER 0 1 7
    { sampleResolver with cancelled := true } rfl rfl).1

end Lsl
